import Mathlib

/-!
Verification of the TrifectaJS Neon provisioning core.

Shallow embedding of `src/packages/cli/src/adapters/neon/neonAdapter.ts`
(class `NeonAdapter`), of the standalone orchestrator in the unnamed module
(`createNeonBranch` and friends), and of the `DBConnection` query gateway.
Remote I/O is modelled by an environment (`NeonEnv`) supplying the parsed
response of each control-plane call; each embedded method returns the list
of API calls it issues together with its `Result`, so that traces ("no
delete was issued", "exactly one creation call") become provable facts.
-/

namespace TrifectaJS

/-- `NeonAPIBranch` from `types.ts`: `id`, `name`, `primary`,
`operations: { id: string }[]` (only the ids are consumed). -/
structure NeonAPIBranch where
  id : String
  name : String
  primary : Bool
  operations : List String
  deriving Repr, DecidableEq

/-- `NeonAPIOperation` from `types.ts`. -/
structure NeonAPIOperation where
  id : String
  action : String
  status : String
  deriving Repr, DecidableEq

/-- `NeonAPIDatabase` from `types.ts`. -/
structure NeonAPIDatabase where
  id : String
  name : String
  deriving Repr, DecidableEq

/-- `NeonAPIRole` from `types.ts`. -/
structure NeonAPIRole where
  id : String
  name : String
  deriving Repr, DecidableEq

/-- The distinct `new Error(...)` sites of the adapter, tagged.  `message`
below recovers the exact source strings. -/
inductive NeonError where
  | redirect (location : String)
  | apiError (status : Nat) (body : String)
  | transport (msg : String)
  | noPrimaryBranch
  | operationFailed (action : String)
  | operationTimeout
  | failedCreateBranchWithEndpoint
  | noDatabases
  | noRoles
  | noURI
  deriving Repr, DecidableEq

/-- The message each error site builds in the source. -/
def NeonError.message : NeonError → String
  | .redirect location =>
      "Redirect detected to " ++ location ++ ". Aborted for security."
  | .apiError status body => "API error (" ++ toString status ++ "): " ++ body
  | .transport msg => msg
  | .noPrimaryBranch => "Could not find primary branch"
  | .operationFailed action => "Operation failed: " ++ action
  | .operationTimeout => "Timed out waiting for operation to complete"
  | .failedCreateBranchWithEndpoint => "Failed to create branch with endpoint"
  | .noDatabases => "No databases found in the branch"
  | .noRoles => "No roles found for the branch"
  | .noURI => "No connection URI found in response"

/-- The `Result<T>` envelope of `adapters/types.ts`: success with data, or
failure with an error. -/
inductive Result (α : Type) where
  | success (data : α)
  | failure (error : NeonError)
  deriving Repr, DecidableEq

/-- The HTTP-level view of a `fetch` response: status code, the
`location` header (if any), and the raw body. -/
structure HTTPResponse where
  status : Nat
  location : Option String
  body : String
  deriving Repr, DecidableEq

/-- One remote control-plane call, identified by endpoint and the
parameters that appear in its URL or body. -/
inductive APICall where
  | listBranches
  | deleteBranch (branchId : String)
  | createBranch (name : String) (parentId : String)
  | getOperation (operationId : String)
  | listDatabases (branchId : String)
  | listRoles (branchId : String)
  | getConnectionURI (branchId : String) (databaseName : String) (roleName : String)
  deriving Repr, DecidableEq

/-- Is this call a branch deletion? -/
def APICall.isDelete : APICall → Bool
  | .deleteBranch _ => true
  | _ => false

/-- Is this call a branch creation? -/
def APICall.isCreate : APICall → Bool
  | .createBranch _ _ => true
  | _ => false

/-- Is this call an operation-status fetch? -/
def APICall.isGetOperation : APICall → Bool
  | .getOperation _ => true
  | _ => false

/-- What one poll of `/operations/id` yields: the fetch failed (the
adapter then returns `result.error`), or it returned an operation. -/
inductive PollResp where
  | fetchFail (e : NeonError)
  | fetchOk (op : NeonAPIOperation)
  deriving Repr, DecidableEq

/-- A pending observation: the fetch succeeded and the status is neither
`finished` nor `failed` (the `else` branch of the poll loop). -/
def PollResp.isPending : PollResp → Bool
  | .fetchFail _ => false
  | .fetchOk op => op.status != "finished" && op.status != "failed"

/-- The observable outcome of one `waitForOperation` run: how many status
fetches it performed, the sleeps (in ms) it awaited, and its result. -/
structure PollRun where
  fetches : Nat
  sleeps : List Nat
  result : Result Unit
  deriving Repr, DecidableEq

namespace NeonAdapter

/-- `NEON_API_URL` of the adapter. -/
def NEON_API_URL : String := "https://console.neon.tech/api/v2"

/-- The requests one `fetchNeonAPI(endpoint, …)` call puts on the wire.
The source passes `redirect: "manual"` to `fetch`, so exactly one request
is issued — the original URL — and a 3xx response is returned to the
caller instead of being followed. -/
def fetchRequests (endpoint : String) : List String :=
  [NEON_API_URL ++ endpoint]

/-- `NeonAdapter.fetchNeonAPI`, modelled over the received response.
Branch order follows the source: the 3xx redirect check comes first, then
the `!response.ok` check (`ok` is status in `[200, 300)`), then JSON
parsing (a parse failure is caught and surfaces as the caught error).
`response.headers.get("location")` is `null` when the header is absent,
which interpolates as the string `"null"`. -/
def fetchNeonAPI {α : Type} (parse : String → Option α) (resp : HTTPResponse) :
    Result α :=
  if 300 ≤ resp.status ∧ resp.status < 400 then
    .failure (.redirect (resp.location.getD "null"))
  else if ¬(200 ≤ resp.status ∧ resp.status < 300) then
    .failure (.apiError resp.status resp.body)
  else
    match parse resp.body with
    | some data => .success data
    | none => .failure (.transport "Unexpected end of JSON input")

/-- `maxAttempts` of `waitForOperation`. -/
def maxAttempts : Nat := 30

/-- The poll loop of `NeonAdapter.waitForOperation`, with the remaining
attempt budget as fuel.  `polls k` is what the `k`-th status fetch
returns; `delay` is the current backoff delay (doubled, capped at 16000,
before each sleep, exactly as in the source). -/
def waitForOperationAux (polls : Nat → PollResp) :
    Nat → Nat → Nat → PollRun
  | _delay, _k, 0 => ⟨0, [], .failure .operationTimeout⟩
  | delay, k, r + 1 =>
    match polls k with
    | .fetchFail e => ⟨1, [], .failure e⟩
    | .fetchOk op =>
      if op.status = "finished" then ⟨1, [], .success ()⟩
      else if op.status = "failed" then
        ⟨1, [], .failure (.operationFailed op.action)⟩
      else
        let d := min (delay * 2) 16000
        let rest := waitForOperationAux polls d (k + 1) r
        ⟨rest.fetches + 1, d :: rest.sleeps, rest.result⟩

/-- `NeonAdapter.waitForOperation`: delay starts at 1000 ms, the attempt
budget is `maxAttempts = 30`. -/
def waitForOperation (polls : Nat → PollResp) : PollRun :=
  waitForOperationAux polls 1000 0 maxAttempts

/-- The successive sleep durations the poll loop produces when it starts
from delay `delay`: each step doubles and caps at 16000 before sleeping. -/
def backoffSleeps (delay : Nat) : Nat → List Nat
  | 0 => []
  | k + 1 => min (delay * 2) 16000 :: backoffSleeps (min (delay * 2) 16000) k

end NeonAdapter

/-- `BranchCheckResult` from `neon/types.ts`: the (possibly absent)
branch with the requested name, and the primary branch's id. -/
structure BranchCheckResult where
  existingBranch : Option NeonAPIBranch
  primaryBranchId : String
  deriving Repr, DecidableEq

/-- The environment of parsed control-plane responses the adapter runs
against: one field per endpoint, giving the `Result` its `fetchNeonAPI`
call produces.  `opPolls opId k` is the `k`-th poll of operation `opId`. -/
structure NeonEnv where
  listBranchesResp : Result (List NeonAPIBranch)
  deleteResp : String → Result Unit
  createResp : String → String → Result NeonAPIBranch
  opPolls : String → Nat → PollResp
  databasesResp : String → Result (List NeonAPIDatabase)
  rolesResp : String → Result (List NeonAPIRole)
  connResp : String → String → String → Result String

/-- JavaScript truthiness of a `string | undefined` value, as tested by
`if (!branchId)` in `createBranch`: falsy exactly when the value is
`undefined` or the empty string. -/
def jsFalsyString : Option String → Bool
  | none => true
  | some s => s == ""

namespace NeonAdapter

/-- `NeonAdapter.checkExistingBranch`: one GET of the branch listing;
fails with "Could not find primary branch" when no listed branch has
`primary === true`; otherwise returns the first branch named
`branchName` (if any) together with the primary branch's id. -/
def checkExistingBranch (env : NeonEnv) (branchName : String) :
    List APICall × Result BranchCheckResult :=
  ([APICall.listBranches],
    match env.listBranchesResp with
    | .failure e => .failure e
    | .success branches =>
      match branches.find? (fun b => b.primary == true) with
      | none => .failure .noPrimaryBranch
      | some primaryBranch =>
        .success ⟨branches.find? (fun b => b.name == branchName), primaryBranch.id⟩)

/-- `NeonAdapter.handleExistingBranch`: with `force` set, one DELETE of
the existing branch and `data = undefined` on success; without `force`,
no remote call and the existing branch's id. -/
def handleExistingBranch (env : NeonEnv) (force : Bool)
    (existingBranch : NeonAPIBranch) : List APICall × Result (Option String) :=
  if force then
    ([APICall.deleteBranch existingBranch.id],
      match env.deleteResp existingBranch.id with
      | .failure e => .failure e
      | .success _ => .success none)
  else ([], .success (some existingBranch.id))

/-- The `for (const operation of branch.operations)` loop of
`createBranchWithEndpoint`: awaits each operation in listing order and
aborts at the first failure.  Each `waitForOperation` run contributes one
`getOperation` call per status fetch it performed. -/
def waitAllOperations (env : NeonEnv) : List String → List APICall × Result Unit
  | [] => ([], .success ())
  | opId :: rest =>
    let run := waitForOperation (env.opPolls opId)
    let calls := List.replicate run.fetches (APICall.getOperation opId)
    match run.result with
    | .failure e => (calls, .failure e)
    | .success _ =>
      let tail := waitAllOperations env rest
      (calls ++ tail.1, tail.2)

/-- `NeonAdapter.createBranchWithEndpoint`: one POST creating the branch
(parented at `parentId`, with a read-write endpoint), then the operation
waits; yields the new branch's id. -/
def createBranchWithEndpoint (env : NeonEnv) (branchName parentId : String) :
    List APICall × Result String :=
  match env.createResp branchName parentId with
  | .failure e => ([APICall.createBranch branchName parentId], .failure e)
  | .success branch =>
    let waited := waitAllOperations env branch.operations
    (APICall.createBranch branchName parentId :: waited.1,
      match waited.2 with
      | .failure e => .failure e
      | .success _ => .success branch.id)

/-- `NeonAdapter.getConnectionString`: list databases (fail when empty),
take the first database's name, list roles (fail when empty), take the
first role's name, request the connection URI, and fail when the returned
`uri` field is missing or empty (both JS-falsy; modelled as `""`). -/
def getConnectionString (env : NeonEnv) (branchId : String) :
    List APICall × Result String :=
  match env.databasesResp branchId with
  | .failure e => ([APICall.listDatabases branchId], .failure e)
  | .success databases =>
    match databases with
    | [] => ([APICall.listDatabases branchId], .failure .noDatabases)
    | db :: _ =>
      match env.rolesResp branchId with
      | .failure e =>
        ([APICall.listDatabases branchId, APICall.listRoles branchId], .failure e)
      | .success roles =>
        match roles with
        | [] =>
          ([APICall.listDatabases branchId, APICall.listRoles branchId],
            .failure .noRoles)
        | role :: _ =>
          match env.connResp branchId db.name role.name with
          | .failure e =>
            ([APICall.listDatabases branchId, APICall.listRoles branchId,
              APICall.getConnectionURI branchId db.name role.name], .failure e)
          | .success uri =>
            ([APICall.listDatabases branchId, APICall.listRoles branchId,
              APICall.getConnectionURI branchId db.name role.name],
              if uri == "" then .failure .noURI else .success uri)

/-- `NeonAdapter.createBranch`, the public orchestrator: resolve the
listing; if a branch with the desired name exists, run the
destroy-or-reuse step; then `if (!branchId)` — JS-falsy, i.e. `undefined`
or `""` — create a new branch parented at the primary, where
`if (!createResult.success || !createResult.data) throw …` also rejects
a successful creation whose returned id is JS-falsy (the empty string)
with `new Error("Failed to create branch with endpoint")`; finally
resolve the connection string for whichever branch id resulted.  The
first failure short-circuits (the source `throw`s it). -/
def createBranch (env : NeonEnv) (force : Bool) (branchName : String) :
    List APICall × Result String :=
  let step1 := checkExistingBranch env branchName
  match step1.2 with
  | .failure e => (step1.1, .failure e)
  | .success data =>
    let step2 :=
      match data.existingBranch with
      | some eb => handleExistingBranch env force eb
      | none => ([], .success none)
    match step2.2 with
    | .failure e => (step1.1 ++ step2.1, .failure e)
    | .success branchId =>
      let step3 : List APICall × Result String :=
        if jsFalsyString branchId then
          let createResult := createBranchWithEndpoint env branchName data.primaryBranchId
          (createResult.1,
            match createResult.2 with
            | .failure e => .failure e
            | .success bid =>
              if bid == "" then .failure .failedCreateBranchWithEndpoint
              else .success bid)
        else ([], .success (branchId.getD ""))
      match step3.2 with
      | .failure e => (step1.1 ++ step2.1 ++ step3.1, .failure e)
      | .success bid =>
        let step4 := getConnectionString env bid
        (step1.1 ++ step2.1 ++ step3.1 ++ step4.1, step4.2)

end NeonAdapter

/-- One row of the `trifecta_migrations` ledger: `id SERIAL PRIMARY KEY`,
`version TEXT NOT NULL` (`applied_at` defaults to the insertion time and
plays no role in the properties below). -/
structure MigrationRow where
  id : Nat
  version : String
  deriving Repr, DecidableEq

/-- The durable state of the `trifecta_migrations` table: whether the
table exists, its rows, and the next value of the `id` sequence.  The
table's only unique constraint is the primary key on `id`. -/
structure MigrationsDB where
  tableExists : Bool
  rows : List MigrationRow
  nextId : Nat
  deriving Repr, DecidableEq

/-- Would inserting a row with id `newId` violate a unique constraint of
`trifecta_migrations`?  The table declares a single unique constraint,
`PRIMARY KEY (id)`; there is no unique constraint on `version`. -/
def migrationsUniqueViolation (db : MigrationsDB) (newId : Nat) : Bool :=
  db.rows.any (fun r => r.id == newId)

namespace NeonAdapter

/-- `NeonAdapter.runMigrations`, restricted to its effect on the
`trifecta_migrations` ledger, per PostgreSQL semantics of the script:
`CREATE TABLE IF NOT EXISTS trifecta_migrations …` creates the table only
when absent; `INSERT INTO trifecta_migrations (version) VALUES ('0.1.0')
ON CONFLICT DO NOTHING` draws the next serial `id` and skips the insert
only when the new row would violate some unique constraint of the table
(without a conflict target, any arbiter constraint applies).  Every
statement of the script is guarded (`IF NOT EXISTS`, `OR REPLACE`,
`DROP … IF EXISTS`, `ON CONFLICT DO NOTHING`), so the script itself
raises no error on re-execution. -/
def runMigrations (db : MigrationsDB) : MigrationsDB :=
  let db1 := if db.tableExists then db else ⟨true, [], 1⟩
  if migrationsUniqueViolation db1 db1.nextId then db1
  else ⟨db1.tableExists, db1.rows ++ [⟨db1.nextId, "0.1.0"⟩], db1.nextId + 1⟩

end NeonAdapter

/-- The two mutually exclusive modes of `DBConnection`, selected at
construction (`useServerless`). -/
inductive DBMode where
  | serverless
  | pooled
  deriving Repr, DecidableEq

/-- A JavaScript async outcome: resolve with a value or reject with an
error (its message). -/
inductive JSOutcome (α : Type) where
  | ok (value : α)
  | raised (error : String)
  deriving Repr, DecidableEq

/-- The observable events of one `DBConnection.transaction` call on the
acquired pool client. -/
inductive TxEvent where
  | connect
  | queryBegin
  | queryCommit
  | queryRollback
  | release
  deriving Repr, DecidableEq

/-- The environment one `transaction` call runs against: the outcome of
the `BEGIN` query, of the caller-supplied unit of work, and of the
`COMMIT` and `ROLLBACK` queries. -/
structure TxEnv (α : Type) where
  beginRes : JSOutcome Unit
  callback : JSOutcome α
  commitRes : JSOutcome Unit
  rollbackRes : JSOutcome Unit

namespace DBConnection

/-- The `catch` block of `transaction`: issues `ROLLBACK` and re-raises
the caught error `e` (unless `ROLLBACK` itself raises, in which case its
error propagates instead). -/
def txCatch {α : Type} (env : TxEnv α) (e : String) :
    List TxEvent × JSOutcome α :=
  match env.rollbackRes with
  | .ok _ => ([TxEvent.queryRollback], .raised e)
  | .raised er => ([TxEvent.queryRollback], .raised er)

/-- `DBConnection.transaction`: in serverless mode it raises without
touching any pool.  In pooled mode it acquires a client, issues `BEGIN`,
runs the unit of work, issues `COMMIT` on success; any raise from
`BEGIN`, the unit of work, or `COMMIT` runs the catch block (`ROLLBACK`
and re-raise); the `finally` releases the client on every path. -/
def transaction {α : Type} (mode : DBMode) (env : TxEnv α) :
    List TxEvent × JSOutcome α :=
  match mode with
  | .serverless =>
    ([], .raised "Transactions are only available with standard pool (not serverless)")
  | .pooled =>
    let body : List TxEvent × JSOutcome α :=
      match env.beginRes with
      | .raised e =>
        let caught := txCatch env e
        (TxEvent.queryBegin :: caught.1, caught.2)
      | .ok _ =>
        match env.callback with
        | .raised e =>
          let caught := txCatch env e
          (TxEvent.queryBegin :: caught.1, caught.2)
        | .ok v =>
          match env.commitRes with
          | .raised e =>
            let caught := txCatch env e
            (TxEvent.queryBegin :: TxEvent.queryCommit :: caught.1, caught.2)
          | .ok _ => ([TxEvent.queryBegin, TxEvent.queryCommit], .ok v)
    (TxEvent.connect :: body.1 ++ [TxEvent.release], body.2)

end DBConnection

namespace NeonAdapter

theorem backoffSleeps_length (m : Nat) :
    ∀ delay, (backoffSleeps delay m).length = m := by
  induction m with
  | zero => intro delay; simp [backoffSleeps]
  | succ m ih => intro delay; simp [backoffSleeps, ih]

theorem min_mul_right_min (a b c : Nat) (hb : 1 ≤ b) :
    min (min a c * b) c = min (a * b) c := by
  rcases Nat.le_total a c with h | h
  · rw [Nat.min_eq_left h]
  · have h1 : c ≤ c * b := Nat.le_mul_of_pos_right c hb
    have h2 : c ≤ a * b := le_trans h (Nat.le_mul_of_pos_right a hb)
    rw [Nat.min_eq_right h, Nat.min_eq_right h1, Nat.min_eq_right h2]

theorem backoffSleeps_getD (m : Nat) :
    ∀ delay i, i < m →
      (backoffSleeps delay m).getD i 0 = min (delay * 2 ^ (i + 1)) 16000 := by
  induction m with
  | zero => intro delay i hi; omega
  | succ m ih =>
    intro delay i hi
    match i with
    | 0 => simp [backoffSleeps, pow_one]
    | j + 1 =>
      have hj : j < m := by omega
      have step := ih (min (delay * 2) 16000) j hj
      calc (backoffSleeps delay (m + 1)).getD (j + 1) 0
          = (backoffSleeps (min (delay * 2) 16000) m).getD j 0 := by
            simp [backoffSleeps]
        _ = min (min (delay * 2) 16000 * 2 ^ (j + 1)) 16000 := step
        _ = min (delay * 2 * 2 ^ (j + 1)) 16000 :=
            min_mul_right_min (delay * 2) (2 ^ (j + 1)) 16000 (Nat.one_le_two_pow)
        _ = min (delay * 2 ^ (j + 1 + 1)) 16000 := by ring_nf

theorem waitAux_sleeps_backoff (polls : Nat → PollResp) :
    ∀ r k0 delay, ∃ m, m ≤ r ∧
      (waitForOperationAux polls delay k0 r).sleeps = backoffSleeps delay m := by
  intro r
  induction r with
  | zero =>
    intro k0 delay
    exact ⟨0, Nat.le_refl 0, by simp [waitForOperationAux, backoffSleeps]⟩
  | succ r' ih =>
    intro k0 delay
    cases hp : polls k0 with
    | fetchFail e =>
      exact ⟨0, by omega, by simp [waitForOperationAux, hp, backoffSleeps]⟩
    | fetchOk op0 =>
      by_cases h1 : op0.status = "finished"
      · exact ⟨0, by omega, by simp [waitForOperationAux, hp, h1, backoffSleeps]⟩
      by_cases h2 : op0.status = "failed"
      · exact ⟨0, by omega, by simp [waitForOperationAux, hp, h1, h2, backoffSleeps]⟩
      obtain ⟨m, hm, hs⟩ := ih (k0 + 1) (min (delay * 2) 16000)
      exact ⟨m + 1, by omega,
        by simp [waitForOperationAux, hp, h1, h2, backoffSleeps, hs]⟩

theorem waitAux_failed (polls : Nat → PollResp) (op : NeonAPIOperation)
    (hfail : op.status = "failed") :
    ∀ k r k0 delay, k < r →
      (∀ j, j < k → (polls (k0 + j)).isPending = true) →
      polls (k0 + k) = .fetchOk op →
      waitForOperationAux polls delay k0 r =
        ⟨k + 1, backoffSleeps delay k, .failure (.operationFailed op.action)⟩ := by
  intro k
  induction k with
  | zero =>
    intro r k0 delay hr _ hop
    obtain ⟨r', rfl⟩ : ∃ r', r = r' + 1 := ⟨r - 1, by omega⟩
    rw [Nat.add_zero] at hop
    have hne : ¬(op.status = "finished") := by rw [hfail]; decide
    simp [waitForOperationAux, hop, hne, hfail, backoffSleeps]
  | succ j ih =>
    intro r k0 delay hr hpend hop
    obtain ⟨r', rfl⟩ : ∃ r', r = r' + 1 := ⟨r - 1, by omega⟩
    have h0 := hpend 0 (Nat.succ_pos j)
    rw [Nat.add_zero] at h0
    cases hp : polls k0 with
    | fetchFail e => rw [hp] at h0; simp [PollResp.isPending] at h0
    | fetchOk op0 =>
      rw [hp] at h0
      simp only [PollResp.isPending, Bool.and_eq_true, bne_iff_ne, ne_eq] at h0
      have heq : k0 + (j + 1) = k0 + 1 + j := by omega
      rw [heq] at hop
      have hrec := ih r' (k0 + 1) (min (delay * 2) 16000) (by omega)
        (fun j' hj' => by
          have hshift := hpend (j' + 1) (by omega)
          have heq' : k0 + (j' + 1) = k0 + 1 + j' := by omega
          rwa [heq'] at hshift) hop
      simp [waitForOperationAux, hp, h0.1, h0.2, hrec, backoffSleeps]

theorem waitAux_timeout (polls : Nat → PollResp) :
    ∀ r k0 delay,
      (∀ j, j < r → (polls (k0 + j)).isPending = true) →
      waitForOperationAux polls delay k0 r =
        ⟨r, backoffSleeps delay r, .failure .operationTimeout⟩ := by
  intro r
  induction r with
  | zero => intro k0 delay _; simp [waitForOperationAux, backoffSleeps]
  | succ r' ih =>
    intro k0 delay hpend
    have h0 := hpend 0 (Nat.succ_pos r')
    rw [Nat.add_zero] at h0
    cases hp : polls k0 with
    | fetchFail e => rw [hp] at h0; simp [PollResp.isPending] at h0
    | fetchOk op0 =>
      rw [hp] at h0
      simp only [PollResp.isPending, Bool.and_eq_true, bne_iff_ne, ne_eq] at h0
      have hrec := ih (k0 + 1) (min (delay * 2) 16000) (fun j hj => by
        have hshift := hpend (j + 1) (by omega)
        have heq : k0 + (j + 1) = k0 + 1 + j := by omega
        rwa [heq] at hshift)
      simp [waitForOperationAux, hp, h0.1, h0.2, hrec, backoffSleeps]

/-- C5: in every polling run of `waitForOperation`, if the `k`-th status
fetch returns an operation with status `"failed"` (after only pending
observations), the poller performs no further status fetches (exactly
`k + 1` in total) and no further sleeps (exactly `k`), and returns the
operation-failed failure carrying that operation's action description,
which is distinct from the timeout failure. -/
theorem waitForOperation_failed_stops (polls : Nat → PollResp) (k : Nat)
    (op : NeonAPIOperation)
    (hk : k < maxAttempts)
    (hpend : ∀ j, j < k → (polls j).isPending = true)
    (hop : polls k = .fetchOk op)
    (hfail : op.status = "failed") :
    waitForOperation polls =
      ⟨k + 1, backoffSleeps 1000 k, .failure (.operationFailed op.action)⟩
    ∧ (waitForOperation polls).sleeps.length = k
    ∧ (NeonError.operationFailed op.action).message = "Operation failed: " ++ op.action
    ∧ NeonError.operationFailed op.action ≠ NeonError.operationTimeout := by
  have h := waitAux_failed polls op hfail k maxAttempts 0 1000 hk
    (fun j hj => by simpa using hpend j hj) (by simpa using hop)
  have hw : waitForOperation polls = waitForOperationAux polls 1000 0 maxAttempts := rfl
  rw [hw, h]
  refine ⟨rfl, backoffSleeps_length k 1000, rfl, by simp⟩

/-- Concrete witness for C5: one pending poll, then a failed one. -/
def pollsFailAfterOne : Nat → PollResp := fun k =>
  if k = 0 then .fetchOk ⟨"op-1", "create_branch", "running"⟩
  else .fetchOk ⟨"op-1", "create_branch", "failed"⟩

theorem waitForOperation_failed_stops_witness :
    waitForOperation pollsFailAfterOne =
      ⟨2, backoffSleeps 1000 1, .failure (.operationFailed "create_branch")⟩
    ∧ (waitForOperation pollsFailAfterOne).sleeps.length = 1
    ∧ (NeonError.operationFailed "create_branch").message =
        "Operation failed: " ++ "create_branch"
    ∧ NeonError.operationFailed "create_branch" ≠ NeonError.operationTimeout :=
  waitForOperation_failed_stops pollsFailAfterOne 1
    ⟨"op-1", "create_branch", "failed"⟩ (by decide) (by decide) (by decide) rfl

/-- C6: if every fetched status within the budget is still pending, the
poller performs exactly `maxAttempts = 30` status fetches and then
returns the timed-out failure, which is a failure distinct from every
operation-failed one. -/
theorem waitForOperation_pending_timeout (polls : Nat → PollResp)
    (hpend : ∀ j, j < maxAttempts → (polls j).isPending = true) :
    (waitForOperation polls).fetches = 30
    ∧ waitForOperation polls =
        ⟨30, backoffSleeps 1000 30, .failure .operationTimeout⟩
    ∧ (∀ a, NeonError.operationTimeout ≠ NeonError.operationFailed a) := by
  have h := waitAux_timeout polls maxAttempts 0 1000
    (fun j hj => by simpa using hpend j hj)
  have hw : waitForOperation polls = waitForOperationAux polls 1000 0 maxAttempts := rfl
  rw [hw, h]
  exact ⟨rfl, rfl, fun a => by simp⟩

/-- Concrete witness for C6: a stream that never leaves pending. -/
def pollsAlwaysPending : Nat → PollResp := fun _ =>
  .fetchOk ⟨"op-2", "start_compute", "running"⟩

theorem waitForOperation_pending_timeout_witness :
    (waitForOperation pollsAlwaysPending).fetches = 30
    ∧ waitForOperation pollsAlwaysPending =
        ⟨30, backoffSleeps 1000 30, .failure .operationTimeout⟩
    ∧ (∀ a, NeonError.operationTimeout ≠ NeonError.operationFailed a) :=
  waitForOperation_pending_timeout pollsAlwaysPending (by decide)

/-- C7: in every polling run, the `i`-th sleep (0-based; the `n`-th
pending sleep, `n = i + 1`, 1-based) lasts
`min (1000 * 2 ^ (i + 1)) 16000` milliseconds: the delay starts at the
1000 ms base, is doubled before each sleep and capped at 16000 ms,
independently of the attempt counter. -/
theorem waitForOperation_backoff_doubles (polls : Nat → PollResp) (i : Nat)
    (hi : i < (waitForOperation polls).sleeps.length) :
    (waitForOperation polls).sleeps.getD i 0 = min (1000 * 2 ^ (i + 1)) 16000 := by
  obtain ⟨m, _, hs⟩ := waitAux_sleeps_backoff polls maxAttempts 0 1000
  have hw : waitForOperation polls = waitForOperationAux polls 1000 0 maxAttempts := rfl
  rw [hw, hs] at hi ⊢
  rw [backoffSleeps_length] at hi
  exact backoffSleeps_getD m 1000 i hi

/-- Concrete witness for C7: a pending stream; the fifth sleep has
reached the 16000 ms cap. -/
def pollsPendingStream : Nat → PollResp := fun _ =>
  .fetchOk ⟨"op-3", "apply_config", "running"⟩

theorem waitForOperation_backoff_doubles_witness :
    (waitForOperation pollsPendingStream).sleeps.getD 4 0 =
      min (1000 * 2 ^ (4 + 1)) 16000 :=
  waitForOperation_backoff_doubles pollsPendingStream 4 (by decide)

/-- C4: the control-plane client refuses to follow redirects.  For every
endpoint and every response with a 3xx status, `fetchNeonAPI` returns the
security-abort failure whose message names the redirect target location,
and — because the underlying `fetch` runs with `redirect: "manual"` —
exactly one request was put on the wire, the original endpoint's URL;
the redirected request is never issued.  Every provisioning endpoint
(list branches, create branch, delete branch, get operation, list
databases, list roles, get connection URI) goes through this one
function. -/
theorem fetchNeonAPI_redirect_refused {α : Type} (parse : String → Option α)
    (endpoint : String) (resp : HTTPResponse)
    (h3 : 300 ≤ resp.status) (h4 : resp.status < 400) :
    fetchNeonAPI parse resp = .failure (.redirect (resp.location.getD "null"))
    ∧ (NeonError.redirect (resp.location.getD "null")).message =
        "Redirect detected to " ++ resp.location.getD "null" ++ ". Aborted for security."
    ∧ fetchRequests endpoint = [NEON_API_URL ++ endpoint]
    ∧ (fetchRequests endpoint).length = 1 := by
  refine ⟨?_, rfl, rfl, rfl⟩
  simp [fetchNeonAPI, h3, h4]

/-- A concrete 301 response pointing at an attacker-controlled host. -/
def respRedirect301 : HTTPResponse :=
  ⟨301, some "https://evil.example.com/api", ""⟩

theorem fetchNeonAPI_redirect_refused_witness :
    fetchNeonAPI (fun _ => (none : Option Unit)) respRedirect301 =
      .failure (.redirect ((respRedirect301.location).getD "null"))
    ∧ (NeonError.redirect ((respRedirect301.location).getD "null")).message =
        "Redirect detected to " ++ (respRedirect301.location).getD "null" ++
          ". Aborted for security."
    ∧ fetchRequests "/projects/p1/branches" =
        [NEON_API_URL ++ "/projects/p1/branches"]
    ∧ (fetchRequests "/projects/p1/branches").length = 1 :=
  fetchNeonAPI_redirect_refused (fun _ => (none : Option Unit))
    "/projects/p1/branches" respRedirect301 (by decide) (by decide)

theorem waitAllOperations_calls_getOp (env : NeonEnv) :
    ∀ ops, ∀ c ∈ (waitAllOperations env ops).1, c.isGetOperation = true := by
  intro ops
  induction ops with
  | nil => intro c hc; simp [waitAllOperations] at hc
  | cons opId rest ih =>
    intro c hc
    simp only [waitAllOperations] at hc
    split at hc
    · rw [List.mem_replicate] at hc
      rw [hc.2]; rfl
    · rw [List.mem_append] at hc
      rcases hc with hc | hc
      · rw [List.mem_replicate] at hc
        rw [hc.2]; rfl
      · exact ih c hc

theorem getConnectionString_calls_resolver (env : NeonEnv) (bid : String) :
    ∀ c ∈ (getConnectionString env bid).1,
      c.isDelete = false ∧ c.isCreate = false := by
  intro c hc
  simp only [getConnectionString] at hc
  repeat' split at hc
  all_goals (fin_cases hc <;> exact ⟨rfl, rfl⟩)

theorem waitAllOperations_no_delete (env : NeonEnv) (ops : List String) :
    (waitAllOperations env ops).1.countP (fun c => c.isDelete) = 0 := by
  rw [List.countP_eq_zero]
  intro c hc
  have h := waitAllOperations_calls_getOp env ops c hc
  cases c <;> simp_all [APICall.isGetOperation, APICall.isDelete]

theorem waitAllOperations_no_create (env : NeonEnv) (ops : List String) :
    (waitAllOperations env ops).1.countP (fun c => c.isCreate) = 0 := by
  rw [List.countP_eq_zero]
  intro c hc
  have h := waitAllOperations_calls_getOp env ops c hc
  cases c <;> simp_all [APICall.isGetOperation, APICall.isCreate]

theorem getConnectionString_no_delete (env : NeonEnv) (bid : String) :
    (getConnectionString env bid).1.countP (fun c => c.isDelete) = 0 := by
  rw [List.countP_eq_zero]
  intro c hc
  simp [(getConnectionString_calls_resolver env bid c hc).1]

theorem getConnectionString_no_create (env : NeonEnv) (bid : String) :
    (getConnectionString env bid).1.countP (fun c => c.isCreate) = 0 := by
  rw [List.countP_eq_zero]
  intro c hc
  simp [(getConnectionString_calls_resolver env bid c hc).2]

/-- C1 (amended: the existing branch's id must be non-empty, since the
orchestrator re-checks the reuse result with the JS-truthiness test
`if (!branchId)`): for every project listing in which a branch with the
desired name exists with a non-empty id and force is false, the
orchestrator issues no delete request and no branch-creation request,
and the branch id passed to the connection resolver is exactly the
existing branch's id. -/
theorem createBranch_reuse_no_force (env : NeonEnv) (branchName : String)
    (branches : List NeonAPIBranch) (p eb : NeonAPIBranch)
    (hList : env.listBranchesResp = .success branches)
    (hPrim : branches.find? (fun b => b.primary == true) = some p)
    (hFind : branches.find? (fun b => b.name == branchName) = some eb)
    (hId : eb.id ≠ "") :
    NeonAdapter.createBranch env false branchName =
      (APICall.listBranches :: (getConnectionString env eb.id).1,
        (getConnectionString env eb.id).2)
    ∧ (NeonAdapter.createBranch env false branchName).1.countP
        (fun c => c.isDelete) = 0
    ∧ (NeonAdapter.createBranch env false branchName).1.countP
        (fun c => c.isCreate) = 0 := by
  have hfalsy : jsFalsyString (some eb.id) = false := by
    simp [jsFalsyString, hId]
  have hPrim' : branches.find? (fun b => b.primary) = some p := by simpa using hPrim
  have hmain : NeonAdapter.createBranch env false branchName =
      (APICall.listBranches :: (getConnectionString env eb.id).1,
        (getConnectionString env eb.id).2) := by
    simp [NeonAdapter.createBranch, checkExistingBranch, handleExistingBranch,
      hList, hPrim', hFind, hfalsy]
  refine ⟨hmain, ?_, ?_⟩ <;> rw [hmain]
  · rw [List.countP_cons, getConnectionString_no_delete env eb.id]
    decide
  · rw [List.countP_cons, getConnectionString_no_create env eb.id]
    decide

/-- A listing in which branch `feature` exists but its id is the empty
string (a primary branch `main` is present); creation succeeds with id
`br-new`. -/
def envEmptyIdBranch : NeonEnv where
  listBranchesResp :=
    .success [⟨"br-main", "main", true, []⟩, ⟨"", "feature", false, []⟩]
  deleteResp := fun _ => .success ()
  createResp := fun name _ => .success ⟨"br-new", name, false, []⟩
  opPolls := fun _ _ => .fetchOk ⟨"op-4", "create_branch", "finished"⟩
  databasesResp := fun _ => .success [⟨"db-1", "neondb"⟩]
  rolesResp := fun _ => .success [⟨"role-1", "owner"⟩]
  connResp := fun b _ _ => .success ("postgres://user:pw@host/" ++ b)

/-- Counterexample to C1 as stated: with force false and an existing
branch named `feature` whose id is the empty string, the orchestrator
does issue a branch-creation request, and the connection resolver is
invoked for the newly created branch's id, not the existing one's. -/
theorem createBranch_reuse_counterexample :
    APICall.createBranch "feature" "br-main" ∈
      (NeonAdapter.createBranch envEmptyIdBranch false "feature").1
    ∧ (NeonAdapter.createBranch envEmptyIdBranch false "feature").1.countP
        (fun c => c.isCreate) = 1
    ∧ APICall.listDatabases "br-new" ∈
        (NeonAdapter.createBranch envEmptyIdBranch false "feature").1
    ∧ APICall.listDatabases "" ∉
        (NeonAdapter.createBranch envEmptyIdBranch false "feature").1
    ∧ (NeonAdapter.createBranch envEmptyIdBranch false "feature").2 =
        .success "postgres://user:pw@host/br-new" := by decide

/-- A listing in which branch `feature` exists with the non-empty id
`br-feat` (primary branch `main` present). -/
def envReuseBranch : NeonEnv where
  listBranchesResp :=
    .success [⟨"br-main", "main", true, []⟩, ⟨"br-feat", "feature", false, []⟩]
  deleteResp := fun _ => .success ()
  createResp := fun name _ => .success ⟨"br-new", name, false, []⟩
  opPolls := fun _ _ => .fetchOk ⟨"op-5", "create_branch", "finished"⟩
  databasesResp := fun _ => .success [⟨"db-1", "neondb"⟩]
  rolesResp := fun _ => .success [⟨"role-1", "owner"⟩]
  connResp := fun b _ _ => .success ("postgres://user:pw@host/" ++ b)

theorem createBranch_reuse_no_force_witness :
    NeonAdapter.createBranch envReuseBranch false "feature" =
      (APICall.listBranches :: (getConnectionString envReuseBranch "br-feat").1,
        (getConnectionString envReuseBranch "br-feat").2)
    ∧ (NeonAdapter.createBranch envReuseBranch false "feature").1.countP
        (fun c => c.isDelete) = 0
    ∧ (NeonAdapter.createBranch envReuseBranch false "feature").1.countP
        (fun c => c.isCreate) = 0 :=
  createBranch_reuse_no_force envReuseBranch "feature"
    [⟨"br-main", "main", true, []⟩, ⟨"br-feat", "feature", false, []⟩]
    ⟨"br-main", "main", true, []⟩ ⟨"br-feat", "feature", false, []⟩
    rfl (by decide) (by decide) (by decide)

/-- C2: for every project listing in which a branch with the desired
name exists and force is true (and the delete, create and operation
waits succeed, the created branch carrying a non-empty id — an empty
one is JS-falsy and rejected by `if (!createResult.success ||
!createResult.data) throw` before any connection resolution), the
orchestrator issues exactly one delete request, for the existing
branch's id, before any branch-creation request; creates exactly one
new branch parented at the primary branch; and resolves the connection
string for the newly created branch's id, not the deleted one's. -/
theorem createBranch_force_replaces (env : NeonEnv) (branchName : String)
    (branches : List NeonAPIBranch) (p eb nb : NeonAPIBranch)
    (hList : env.listBranchesResp = .success branches)
    (hPrim : branches.find? (fun b => b.primary == true) = some p)
    (hFind : branches.find? (fun b => b.name == branchName) = some eb)
    (hDel : env.deleteResp eb.id = .success ())
    (hCreate : env.createResp branchName p.id = .success nb)
    (hNb : nb.id ≠ "")
    (hOps : (waitAllOperations env nb.operations).2 = .success ()) :
    NeonAdapter.createBranch env true branchName =
      (APICall.listBranches :: APICall.deleteBranch eb.id ::
        APICall.createBranch branchName p.id ::
          ((waitAllOperations env nb.operations).1 ++
            (getConnectionString env nb.id).1),
        (getConnectionString env nb.id).2)
    ∧ (NeonAdapter.createBranch env true branchName).1.countP
        (fun c => c.isDelete) = 1
    ∧ (NeonAdapter.createBranch env true branchName).1.countP
        (fun c => c.isCreate) = 1 := by
  have hPrim' : branches.find? (fun b => b.primary) = some p := by simpa using hPrim
  have hstep3 : createBranchWithEndpoint env branchName p.id =
      (APICall.createBranch branchName p.id ::
        (waitAllOperations env nb.operations).1, .success nb.id) := by
    simp [createBranchWithEndpoint, hCreate, hOps]
  have hNb' : (nb.id == "") = false := by simp [hNb]
  have hmain : NeonAdapter.createBranch env true branchName =
      (APICall.listBranches :: APICall.deleteBranch eb.id ::
        APICall.createBranch branchName p.id ::
          ((waitAllOperations env nb.operations).1 ++
            (getConnectionString env nb.id).1),
        (getConnectionString env nb.id).2) := by
    simp [NeonAdapter.createBranch, checkExistingBranch, handleExistingBranch,
      hList, hPrim', hFind, hDel, hstep3, hNb', jsFalsyString]
  refine ⟨hmain, ?_, ?_⟩ <;> rw [hmain]
  · rw [List.countP_cons, List.countP_cons, List.countP_cons, List.countP_append,
      waitAllOperations_no_delete env nb.operations,
      getConnectionString_no_delete env nb.id]
    simp [APICall.isDelete]
  · rw [List.countP_cons, List.countP_cons, List.countP_cons, List.countP_append,
      waitAllOperations_no_create env nb.operations,
      getConnectionString_no_create env nb.id]
    simp [APICall.isCreate]

/-- A listing with primary `main` and an existing branch `feature`
(id `br-feat`); recreating it yields `br-new2` with one pending-then-
finished operation. -/
def envForceReplace : NeonEnv where
  listBranchesResp :=
    .success [⟨"br-main", "main", true, []⟩, ⟨"br-feat", "feature", false, []⟩]
  deleteResp := fun _ => .success ()
  createResp := fun name _ => .success ⟨"br-new2", name, false, ["op-6"]⟩
  opPolls := fun _ _ => .fetchOk ⟨"op-6", "create_branch", "finished"⟩
  databasesResp := fun _ => .success [⟨"db-1", "neondb"⟩]
  rolesResp := fun _ => .success [⟨"role-1", "owner"⟩]
  connResp := fun b _ _ => .success ("postgres://user:pw@host/" ++ b)

theorem createBranch_force_replaces_witness :
    NeonAdapter.createBranch envForceReplace true "feature" =
      (APICall.listBranches :: APICall.deleteBranch "br-feat" ::
        APICall.createBranch "feature" "br-main" ::
          ((waitAllOperations envForceReplace ["op-6"]).1 ++
            (getConnectionString envForceReplace "br-new2").1),
        (getConnectionString envForceReplace "br-new2").2)
    ∧ (NeonAdapter.createBranch envForceReplace true "feature").1.countP
        (fun c => c.isDelete) = 1
    ∧ (NeonAdapter.createBranch envForceReplace true "feature").1.countP
        (fun c => c.isCreate) = 1 :=
  createBranch_force_replaces envForceReplace "feature"
    [⟨"br-main", "main", true, []⟩, ⟨"br-feat", "feature", false, []⟩]
    ⟨"br-main", "main", true, []⟩ ⟨"br-feat", "feature", false, []⟩
    ⟨"br-new2", "feature", false, ["op-6"]⟩
    rfl (by decide) (by decide) rfl rfl (by decide) (by decide)

/-- C3: for every project listing that contains no branch with
`primary = true`, provisioning fails with the precondition failure
"Could not find primary branch", and the whole trace is the single
list-branches call — no branch-creation and no branch-deletion request
was issued. -/
theorem createBranch_noPrimary_failsFast (env : NeonEnv) (force : Bool)
    (branchName : String) (branches : List NeonAPIBranch)
    (hList : env.listBranchesResp = .success branches)
    (hPrim : branches.find? (fun b => b.primary == true) = none) :
    NeonAdapter.createBranch env force branchName =
      ([APICall.listBranches], .failure .noPrimaryBranch)
    ∧ NeonError.noPrimaryBranch.message = "Could not find primary branch" := by
  have hPrim' : branches.find? (fun b => b.primary) = none := by simpa using hPrim
  exact ⟨by simp [NeonAdapter.createBranch, checkExistingBranch, hList, hPrim'], rfl⟩

/-- A listing with no primary branch. -/
def envNoPrimary : NeonEnv where
  listBranchesResp :=
    .success [⟨"br-a", "alpha", false, []⟩, ⟨"br-b", "beta", false, []⟩]
  deleteResp := fun _ => .success ()
  createResp := fun name _ => .success ⟨"br-c", name, false, []⟩
  opPolls := fun _ _ => .fetchOk ⟨"op-7", "create_branch", "finished"⟩
  databasesResp := fun _ => .success [⟨"db-1", "neondb"⟩]
  rolesResp := fun _ => .success [⟨"role-1", "owner"⟩]
  connResp := fun b _ _ => .success ("postgres://user:pw@host/" ++ b)

theorem createBranch_noPrimary_failsFast_witness :
    NeonAdapter.createBranch envNoPrimary false "feature" =
      ([APICall.listBranches], .failure .noPrimaryBranch)
    ∧ NeonError.noPrimaryBranch.message = "Could not find primary branch" :=
  createBranch_noPrimary_failsFast envNoPrimary false "feature"
    [⟨"br-a", "alpha", false, []⟩, ⟨"br-b", "beta", false, []⟩]
    rfl (by decide)

/-- C10: if the listing contains a branch with the desired name whose id
is the empty string (and force is false), the orchestrator's truthiness
check `if (!branchId)` treats the reuse result as absent — the empty
string is JS-falsy — and it falls through to issuing a branch-creation
request instead of reusing the existing branch. -/
theorem createBranch_emptyId_creates (env : NeonEnv) (branchName : String)
    (branches : List NeonAPIBranch) (p eb : NeonAPIBranch)
    (hList : env.listBranchesResp = .success branches)
    (hPrim : branches.find? (fun b => b.primary == true) = some p)
    (hFind : branches.find? (fun b => b.name == branchName) = some eb)
    (hId : eb.id = "") :
    jsFalsyString (some eb.id) = true
    ∧ APICall.createBranch branchName p.id ∈
        (NeonAdapter.createBranch env false branchName).1 := by
  have hPrim' : branches.find? (fun b => b.primary) = some p := by simpa using hPrim
  have hfalsy : jsFalsyString (some eb.id) = true := by simp [jsFalsyString, hId]
  refine ⟨hfalsy, ?_⟩
  have hcM : APICall.createBranch branchName p.id ∈
      (createBranchWithEndpoint env branchName p.id).1 := by
    unfold createBranchWithEndpoint
    rcases env.createResp branchName p.id with b | e <;> simp
  simp [NeonAdapter.createBranch, checkExistingBranch, handleExistingBranch,
    hList, hPrim', hFind, hfalsy]
  rcases hsplit : (createBranchWithEndpoint env branchName p.id).2 with bid | e
  · by_cases hb : bid = ""
    · simp [hsplit, hb, hcM]
    · simp [hsplit, hb, hcM]
  · simp [hsplit, hcM]

theorem createBranch_emptyId_creates_witness :
    jsFalsyString (some "") = true
    ∧ APICall.createBranch "feature" "br-main" ∈
        (NeonAdapter.createBranch envEmptyIdBranch false "feature").1 :=
  createBranch_emptyId_creates envEmptyIdBranch "feature"
    [⟨"br-main", "main", true, []⟩, ⟨"", "feature", false, []⟩]
    ⟨"br-main", "main", true, []⟩ ⟨"", "feature", false, []⟩
    rfl (by decide) (by decide) rfl

/-- C8 evaluated at the failing input: running the migration script
twice against a fresh target raises nothing in the model (every
statement of the script is guarded), but afterwards the
`trifecta_migrations` ledger holds TWO rows with version '0.1.0', not
one: the table's only unique constraint is the serial primary key, which
a fresh sequence value never violates, so
`INSERT … VALUES ('0.1.0') ON CONFLICT DO NOTHING` finds no conflict on
the second run and inserts a duplicate version row. -/
theorem runMigrations_twice_duplicates_ledger :
    (NeonAdapter.runMigrations (NeonAdapter.runMigrations ⟨false, [], 1⟩)).rows =
      [⟨1, "0.1.0"⟩, ⟨2, "0.1.0"⟩]
    ∧ ((NeonAdapter.runMigrations
          (NeonAdapter.runMigrations ⟨false, [], 1⟩)).rows.filter
        (fun r => r.version == "0.1.0")).length = 2
    ∧ ¬(((NeonAdapter.runMigrations
          (NeonAdapter.runMigrations ⟨false, [], 1⟩)).rows.filter
        (fun r => r.version == "0.1.0")).length = 1) := by decide

end NeonAdapter

namespace DBConnection

/-- C9: for every unit of work passed to `transaction` in pooled mode
with a working `BEGIN`: when the unit of work returns normally and
`COMMIT` succeeds, the client sees `BEGIN` then `COMMIT`; when the unit
of work raises, `ROLLBACK` is issued instead of `COMMIT` and the error
is re-raised; and on every path — including a failing `COMMIT` — the
acquired client is released back to the pool, as the last event. -/
theorem transaction_contract {α : Type} (env : TxEnv α)
    (hbegin : env.beginRes = .ok ()) :
    (∀ v, env.callback = .ok v → env.commitRes = .ok () →
        transaction DBMode.pooled env =
          ([TxEvent.connect, TxEvent.queryBegin, TxEvent.queryCommit,
            TxEvent.release], .ok v))
    ∧ (∀ e, env.callback = .raised e → env.rollbackRes = .ok () →
        transaction DBMode.pooled env =
          ([TxEvent.connect, TxEvent.queryBegin, TxEvent.queryRollback,
            TxEvent.release], .raised e))
    ∧ TxEvent.release ∈ (transaction DBMode.pooled env).1
    ∧ (transaction DBMode.pooled env).1.getLast? = some TxEvent.release := by
  refine ⟨?_, ?_, ?_, ?_⟩
  · intro v hcb hcm
    simp [transaction, hbegin, hcb, hcm]
  · intro e hcb hrb
    simp [transaction, txCatch, hbegin, hcb, hrb]
  · simp [transaction]
  · simp only [transaction]
    rw [List.getLast?_concat]

/-- A unit of work that raises, against queries that all succeed. -/
def txEnvRollbackExample : TxEnv Nat :=
  ⟨.ok (), .raised "unit of work failed", .ok (), .ok ()⟩

theorem transaction_contract_witness :
    transaction DBMode.pooled txEnvRollbackExample =
      ([TxEvent.connect, TxEvent.queryBegin, TxEvent.queryRollback,
        TxEvent.release], .raised "unit of work failed")
    ∧ TxEvent.release ∈ (transaction DBMode.pooled txEnvRollbackExample).1 :=
  ⟨(transaction_contract txEnvRollbackExample rfl).2.1 "unit of work failed" rfl rfl,
   (transaction_contract txEnvRollbackExample rfl).2.2.1⟩

end DBConnection

end TrifectaJS
